import Mathlib

/-!
Verification of the in-memory Student CRUD service (`main.go`) and the
Ollama generation client (second source file of the repository).

The Go program is shallowly embedded:

* `Student`, `ValidationError`, `StudentStore` mirror the Go structs.
  The unused `db *sql.DB` handle of `StudentStore` carries no behaviour
  touched by any handler and is omitted from the state.
* The Go map `map[int]Student` is embedded as an association list together
  with `mapLookup` / `mapInsert` / `mapErase`, which realise exactly the
  key-to-value function of the Go map (iteration order of `GetAll` is
  unspecified by the spec).
* Each HTTP handler becomes a pure function from its parsed inputs and the
  store state to a `Response` and the successor state.  Path-id parsing
  (`strconv.Atoi`) and JSON body decoding are represented by `Option`
  arguments: `none` is the parse/decode failure the handler answers with 400.
* The Ollama client's HTTP POST plus JSON decode is abstracted as a function
  argument `net`; the request it is given is built exactly as the Go code
  builds it (`json.Marshal` of a struct of strings cannot fail in Go and has
  no error branch in the model).
-/

/-- Go struct `Student`. -/
structure Student where
  id : Int
  name : String
  age : Int
  email : String
deriving Repr, DecidableEq

/-- Go struct `ValidationError`. -/
structure ValidationError where
  field : String
  message : String
deriving Repr, DecidableEq

/-- `func (s Student) Validate() []ValidationError`, embedded clause by
clause: each failing rule appends one error to the (initially empty) list. -/
def Student.validate (s : Student) : List ValidationError :=
  let errors : List ValidationError := []
  let errors := if s.name = "" then
      errors ++ [{ field := "name", message := "Name is required" }] else errors
  let errors := if s.age < 0 ∨ s.age > 150 then
      errors ++ [{ field := "age", message := "Age must be between 0 and 150" }] else errors
  let errors := if s.email = "" then
      errors ++ [{ field := "email", message := "Email is required" }] else errors
  errors

/-- Lookup in the embedded Go map (`store.students[id]`). -/
def mapLookup (m : List (Int × Student)) (k : Int) : Option Student :=
  match m with
  | [] => none
  | (k', v) :: rest => if k' = k then some v else mapLookup rest k

/-- Removal from the embedded Go map (`delete(store.students, id)`). -/
def mapErase (m : List (Int × Student)) (k : Int) : List (Int × Student) :=
  match m with
  | [] => []
  | (k', v) :: rest => if k' = k then mapErase rest k else (k', v) :: mapErase rest k

/-- Assignment into the embedded Go map (`store.students[id] = s`): the key
is bound to the new value and every other key keeps its binding. -/
def mapInsert (m : List (Int × Student)) (k : Int) (v : Student) : List (Int × Student) :=
  (k, v) :: mapErase m k

/-- Go struct `StudentStore` (mutable state only: the map and the counter;
the lock serialises handlers and is realised by the handlers being functions
on the whole state; the unused `db` handle is omitted). -/
structure StudentStore where
  students : List (Int × Student)
  nextID : Int
deriving Repr, DecidableEq

/-- `NewStudentStore`: empty map, `nextID = 1`. -/
def freshStore : StudentStore := { students := [], nextID := 1 }

/-- The JSON/status responses the six handlers can produce. -/
inductive Response where
  | invalidBody
  | invalidID
  | validationFailed (errors : List ValidationError)
  | notFound
  | created (student : Student)
  | ok (student : Student)
  | okList (students : List Student)
  | noContent
  | okSummary (summary : String)
deriving Repr, DecidableEq

/-- HTTP status code written by each response. -/
def Response.status : Response → Nat
  | .invalidBody => 400
  | .invalidID => 400
  | .validationFailed _ => 400
  | .notFound => 404
  | .created _ => 201
  | .ok _ => 200
  | .okList _ => 200
  | .noContent => 204
  | .okSummary _ => 200

/-- `App.CreateStudent`: decode body, validate, then assign `id = nextID`,
increment `nextID`, insert, answer 201 with the stored student. -/
def createStudent (body : Option Student) (st : StudentStore) : Response × StudentStore :=
  match body with
  | none => (Response.invalidBody, st)
  | some student =>
    let errors := student.validate
    if errors.length > 0 then
      (Response.validationFailed errors, st)
    else
      let student := { student with id := st.nextID }
      (Response.created student,
        { st with nextID := st.nextID + 1,
                  students := mapInsert st.students student.id student })

/-- `App.GetAllStudents`: snapshot of all stored values, state unchanged. -/
def getAllStudents (st : StudentStore) : Response × StudentStore :=
  (Response.okList (st.students.map Prod.snd), st)

/-- `App.GetStudent`: parse id, look up, 404 when absent. -/
def getStudent (pathID : Option Int) (st : StudentStore) : Response × StudentStore :=
  match pathID with
  | none => (Response.invalidID, st)
  | some i =>
    match mapLookup st.students i with
    | none => (Response.notFound, st)
    | some student => (Response.ok student, st)

/-- `App.UpdateStudent`: parse id, decode body, validate, 404 when the id is
absent, otherwise force the body's id to the path id and replace the stored
value wholesale. -/
def updateStudent (pathID : Option Int) (body : Option Student) (st : StudentStore) :
    Response × StudentStore :=
  match pathID with
  | none => (Response.invalidID, st)
  | some i =>
    match body with
    | none => (Response.invalidBody, st)
    | some student =>
      let errors := student.validate
      if errors.length > 0 then
        (Response.validationFailed errors, st)
      else
        match mapLookup st.students i with
        | none => (Response.notFound, st)
        | some _ =>
          let student := { student with id := i }
          (Response.ok student, { st with students := mapInsert st.students i student })

/-- `App.DeleteStudent`: parse id, 404 when absent, otherwise remove. -/
def deleteStudent (pathID : Option Int) (st : StudentStore) : Response × StudentStore :=
  match pathID with
  | none => (Response.invalidID, st)
  | some i =>
    match mapLookup st.students i with
    | none => (Response.notFound, st)
    | some _ => (Response.noContent, { st with students := mapErase st.students i })

/-- `App.GetStudentSummary`: parse id, look up, format
`fmt.Sprintf("Student %s is %d years old with email %s.", ...)`. -/
def getStudentSummary (pathID : Option Int) (st : StudentStore) : Response × StudentStore :=
  match pathID with
  | none => (Response.invalidID, st)
  | some i =>
    match mapLookup st.students i with
    | none => (Response.notFound, st)
    | some student =>
      (Response.okSummary ("Student " ++ student.name ++ " is " ++ toString student.age ++
          " years old with email " ++ student.email ++ "."), st)

/-- One inbound request, already routed and parsed as far as the router and
`mux.Vars` do it. -/
inductive Op where
  | create (body : Option Student)
  | getAll
  | get (pathID : Option Int)
  | update (pathID : Option Int) (body : Option Student)
  | del (pathID : Option Int)
  | summary (pathID : Option Int)
deriving Repr, DecidableEq

/-- Dispatch of a request to its handler. -/
def handle (op : Op) (st : StudentStore) : Response × StudentStore :=
  match op with
  | .create body => createStudent body st
  | .getAll => getAllStudents st
  | .get i => getStudent i st
  | .update i body => updateStudent i body st
  | .del i => deleteStudent i st
  | .summary i => getStudentSummary i st

/-- State reached after one request. -/
def step (st : StudentStore) (op : Op) : StudentStore := (handle op st).2

/-- State reached after a sequence of requests. -/
def run (st : StudentStore) (ops : List Op) : StudentStore := ops.foldl step st

/-! ### Map lemmas -/

theorem mapLookup_erase_self (m : List (Int × Student)) (k : Int) :
    mapLookup (mapErase m k) k = none := by
  induction m with
  | nil => rfl
  | cons p rest ih =>
    obtain ⟨k', v⟩ := p
    by_cases h : k' = k
    · simp [mapErase, h, ih]
    · simp [mapErase, mapLookup, h, ih]

theorem mapLookup_erase_ne (m : List (Int × Student)) (k j : Int) (h : j ≠ k) :
    mapLookup (mapErase m k) j = mapLookup m j := by
  induction m with
  | nil => rfl
  | cons p rest ih =>
    obtain ⟨k', v⟩ := p
    by_cases hk : k' = k
    · subst hk
      simp [mapErase, mapLookup, Ne.symm h, ih]
    · simp [mapErase, mapLookup, hk, ih]

theorem mapLookup_insert_self (m : List (Int × Student)) (k : Int) (v : Student) :
    mapLookup (mapInsert m k v) k = some v := by
  simp [mapInsert, mapLookup]

theorem mapLookup_insert_ne (m : List (Int × Student)) (k j : Int) (v : Student) (h : j ≠ k) :
    mapLookup (mapInsert m k v) j = mapLookup m j := by
  simp [mapInsert, mapLookup, Ne.symm h, mapLookup_erase_ne m k j h]

theorem mem_mapErase (m : List (Int × Student)) (k : Int) (p : Int × Student)
    (h : p ∈ mapErase m k) : p ∈ m := by
  induction m with
  | nil => simp [mapErase] at h
  | cons q rest ih =>
    obtain ⟨k', v⟩ := q
    by_cases hk : k' = k
    · simp only [mapErase, if_pos hk] at h
      exact List.mem_cons_of_mem _ (ih h)
    · simp only [mapErase, if_neg hk, List.mem_cons] at h
      rcases h with h | h
      · exact h ▸ List.mem_cons_self _ _
      · exact List.mem_cons_of_mem _ (ih h)

theorem mem_mapInsert (m : List (Int × Student)) (k : Int) (v : Student) (p : Int × Student)
    (h : p ∈ mapInsert m k v) : p = (k, v) ∨ p ∈ m := by
  simp only [mapInsert, List.mem_cons] at h
  rcases h with h | h
  · exact Or.inl h
  · exact Or.inr (mem_mapErase m k p h)

/-! ### Validation -/

theorem validate_id_independent (s : Student) (n : Int) :
    Student.validate { s with id := n } = s.validate := rfl

theorem validate_eq_nil_of_not_pos (s : Student) (h : ¬ s.validate.length > 0) :
    s.validate = [] := by
  cases hv : s.validate with
  | nil => rfl
  | cons e es => rw [hv] at h; simp at h

/-- C1: `Validate` returns exactly one error per failing rule, in the field
order name, age, email, and returns the empty list exactly when the name is
non-empty, the age lies in [0,150], and the email is non-empty. -/
theorem validate_rules (s : Student) :
    s.validate =
      (if s.name = "" then [{ field := "name", message := "Name is required" }] else [])
        ++ (if ¬ (0 ≤ s.age ∧ s.age ≤ 150) then
              [{ field := "age", message := "Age must be between 0 and 150" }] else [])
        ++ (if s.email = "" then [{ field := "email", message := "Email is required" }] else [])
      ∧ (s.validate = [] ↔ s.name ≠ "" ∧ 0 ≤ s.age ∧ s.age ≤ 150 ∧ s.email ≠ "") := by
  have hage : (s.age < 0 ∨ s.age > 150) ↔ ¬ (0 ≤ s.age ∧ s.age ≤ 150) := by omega
  constructor
  · simp only [Student.validate, List.nil_append]
    by_cases h1 : s.name = "" <;> by_cases h2 : s.age < 0 ∨ s.age > 150 <;>
      by_cases h3 : s.email = "" <;>
        simp [h1, h2, h3, hage.symm]
  · simp only [Student.validate, List.nil_append]
    by_cases h1 : s.name = "" <;> by_cases h2 : s.age < 0 ∨ s.age > 150 <;>
      by_cases h3 : s.email = "" <;>
        simp [h1, h2, h3] <;> omega

/-! ### Id assignment by Create -/

/-- The integers `start, start+1, ..., start+n-1`. -/
def intRange (start : Int) : Nat → List Int
  | 0 => []
  | n + 1 => start :: intRange (start + 1) n

/-- The ids handed out by the successful Creates of a request sequence, in
request order. -/
def createdIds (st : StudentStore) : List Op → List Int
  | [] => []
  | op :: ops =>
    (match (handle op st).1 with
      | Response.created s => [s.id]
      | _ => []) ++ createdIds (step st op) ops

theorem mem_intRange (start : Int) (n : Nat) (x : Int) (h : x ∈ intRange start n) :
    start ≤ x := by
  induction n generalizing start with
  | zero => simp [intRange] at h
  | succ n ih =>
    simp only [intRange, List.mem_cons] at h
    rcases h with h | h
    · omega
    · have := ih (start + 1) h; omega

theorem intRange_nodup (start : Int) (n : Nat) : (intRange start n).Nodup := by
  induction n generalizing start with
  | zero => simp [intRange]
  | succ n ih =>
    simp only [intRange, List.nodup_cons]
    exact ⟨fun h => by have := mem_intRange (start + 1) n start h; omega, ih (start + 1)⟩

/-- A request that does not answer 201 leaves `nextID` unchanged. -/
theorem nextID_of_not_created (op : Op) (st : StudentStore)
    (h : ∀ s, (handle op st).1 ≠ Response.created s) :
    (step st op).nextID = st.nextID := by
  cases op with
  | create body =>
    cases body with
    | none => rfl
    | some s =>
      by_cases hv : s.validate.length > 0
      · simp [step, handle, createStudent, if_pos hv]
      · exact absurd (by simp [handle, createStudent, if_neg hv] : (handle (Op.create (some s)) st).1 = Response.created { s with id := st.nextID }) (h _)
  | getAll => rfl
  | get i => cases i with
    | none => rfl
    | some i => simp only [step, handle, getStudent]; cases mapLookup st.students i <;> rfl
  | update i body =>
    cases i with
    | none => rfl
    | some i =>
      cases body with
      | none => rfl
      | some s =>
        simp only [step, handle, updateStudent]
        by_cases hv : s.validate.length > 0
        · simp [if_pos hv]
        · simp only [if_neg hv]
          cases mapLookup st.students i <;> rfl
  | del i => cases i with
    | none => rfl
    | some i => simp only [step, handle, deleteStudent]; cases mapLookup st.students i <;> rfl
  | summary i => cases i with
    | none => rfl
    | some i => simp only [step, handle, getStudentSummary]; cases mapLookup st.students i <;> rfl

/-- A request that answers 201 is a Create with a valid body; the id in the
answer is the old `nextID` and the new `nextID` is one larger. -/
theorem created_shape (op : Op) (st : StudentStore) (s : Student)
    (h : (handle op st).1 = Response.created s) :
    s.id = st.nextID ∧ (step st op).nextID = st.nextID + 1 := by
  cases op with
  | create body =>
    cases body with
    | none => simp [handle, createStudent] at h
    | some t =>
      by_cases hv : t.validate.length > 0
      · simp [handle, createStudent, if_pos hv] at h
      · simp only [handle, createStudent, if_neg hv, Response.created.injEq] at h
        refine ⟨?_, by simp [step, handle, createStudent, if_neg hv]⟩
        rw [← h]
  | getAll => simp [handle, getAllStudents] at h
  | get i =>
    cases i with
    | none => simp [handle, getStudent] at h
    | some i => simp only [handle, getStudent] at h; split at h <;> simp at h
  | update i body =>
    cases i with
    | none => simp [handle, updateStudent] at h
    | some i =>
      cases body with
      | none => simp [handle, updateStudent] at h
      | some t =>
        simp only [handle, updateStudent] at h
        by_cases hv : t.validate.length > 0
        · simp [if_pos hv] at h
        · simp only [if_neg hv] at h
          split at h <;> simp at h
  | del i =>
    cases i with
    | none => simp [handle, deleteStudent] at h
    | some i => simp only [handle, deleteStudent] at h; split at h <;> simp at h
  | summary i =>
    cases i with
    | none => simp [handle, getStudentSummary] at h
    | some i =>
      simp only [handle, getStudentSummary] at h
      split at h <;> simp at h

/-- Starting from `nextID = n`, the successful Creates of any request
sequence hand out exactly the ids `n, n+1, n+2, ...` in order. -/
theorem createdIds_sequential (ops : List Op) (st : StudentStore) :
    createdIds st ops = intRange st.nextID (createdIds st ops).length := by
  induction ops generalizing st with
  | nil => rfl
  | cons op ops ih =>
    by_cases hc : ∃ s, (handle op st).1 = Response.created s
    · obtain ⟨s, hs⟩ := hc
      obtain ⟨hid, hnext⟩ := created_shape op st s hs
      have ih2 := ih (step st op)
      simp only [createdIds, hs, List.singleton_append, List.length_cons]
      rw [intRange, ← hnext, ← ih2, hid]
    · push_neg at hc
      have hnext := nextID_of_not_created op st hc
      have hresp : (match (handle op st).1 with
          | Response.created s => [s.id]
          | _ => []) = ([] : List Int) := by
        cases hr : (handle op st).1 <;> first | rfl | exact absurd hr (hc _)
      simp only [createdIds, hresp, List.nil_append]
      rw [← hnext]
      exact ih (step st op)

/-- C2: a successful Create assigns `id = nextID` whatever id the body
carried and advances `nextID`; from a fresh store the assigned ids are
`1, 2, 3, ...` in creation order; and no id is ever assigned twice, so an id
removed by Delete is never handed out again. -/
theorem create_id_assignment :
    (∀ (st : StudentStore) (s : Student), s.validate = [] →
      createStudent (some s) st =
        (Response.created { s with id := st.nextID },
          { students := mapInsert st.students st.nextID { s with id := st.nextID },
            nextID := st.nextID + 1 })) ∧
    (∀ ops : List Op,
      createdIds freshStore ops = intRange 1 (createdIds freshStore ops).length) ∧
    (∀ ops : List Op, (createdIds freshStore ops).Nodup) := by
  refine ⟨?_, ?_, ?_⟩
  · intro st s hv
    simp [createStudent, hv]
  · intro ops
    exact createdIds_sequential ops freshStore
  · intro ops
    rw [createdIds_sequential ops freshStore]
    exact intRange_nodup _ _

/-- Witness for C2: the body's `id = 42` is ignored, the first two Creates
from a fresh store receive ids 1 and 2. -/
theorem create_id_assignment_witness :
    createStudent (some { id := 42, name := "Ann", age := 20, email := "a@b.com" }) freshStore =
      (Response.created { id := 1, name := "Ann", age := 20, email := "a@b.com" },
        { students := [(1, { id := 1, name := "Ann", age := 20, email := "a@b.com" })],
          nextID := 2 }) ∧
    createdIds freshStore
        [Op.create (some { id := 42, name := "Ann", age := 20, email := "a@b.com" }),
         Op.create (some { id := 7, name := "Bob", age := 30, email := "b@b.com" })] = [1, 2] := by
  constructor
  · exact (create_id_assignment.1 freshStore
      { id := 42, name := "Ann", age := 20, email := "a@b.com" } (by decide)).trans (by rfl)
  · have h := create_id_assignment.2.1
      [Op.create (some { id := 42, name := "Ann", age := 20, email := "a@b.com" }),
       Op.create (some { id := 7, name := "Bob", age := 30, email := "b@b.com" })]
    rw [h]
    rfl

/-! ### Update, Get, Delete behaviour -/

/-- C3: a successful Update replaces the stored record wholesale with the
body, its id forced to the path id, and a subsequent Get returns exactly
that record. -/
theorem update_full_replace (st : StudentStore) (i : Int) (s t : Student)
    (hv : s.validate = []) (hex : mapLookup st.students i = some t) :
    (updateStudent (some i) (some s) st).1 = Response.ok { s with id := i } ∧
    (getStudent (some i) (updateStudent (some i) (some s) st).2).1 =
      Response.ok { s with id := i } := by
  have hlen : ¬ s.validate.length > 0 := by rw [hv]; simp
  constructor
  · simp [updateStudent, if_neg hlen, hex]
  · simp [updateStudent, if_neg hlen, hex, getStudent, mapLookup_insert_self]

/-- Witness for C3: updating id 1 with name X, age 5, email x@x makes Get
return exactly that record with id 1. -/
theorem update_full_replace_witness :
    (updateStudent (some 1) (some { id := 9, name := "X", age := 5, email := "x@x" })
        { students := [(1, { id := 1, name := "Ann", age := 20, email := "a@b.com" })],
          nextID := 2 }).1 =
      Response.ok { id := 1, name := "X", age := 5, email := "x@x" } ∧
    (getStudent (some 1)
        (updateStudent (some 1) (some { id := 9, name := "X", age := 5, email := "x@x" })
          { students := [(1, { id := 1, name := "Ann", age := 20, email := "a@b.com" })],
            nextID := 2 }).2).1 =
      Response.ok { id := 1, name := "X", age := 5, email := "x@x" } :=
  update_full_replace
    { students := [(1, { id := 1, name := "Ann", age := 20, email := "a@b.com" })], nextID := 2 }
    1 { id := 9, name := "X", age := 5, email := "x@x" }
    { id := 1, name := "Ann", age := 20, email := "a@b.com" } (by decide) (by decide)

/-- C4: with a well-formed id that is absent from the store (and, for
Update, a valid body), Get, Update and Delete all answer 404, whatever else
the store contains; and a Get right after a Delete of the same id answers
404 from any state. -/
theorem absent_id_not_found (st : StudentStore) (i : Int) (s : Student)
    (habs : mapLookup st.students i = none) (hv : s.validate = []) :
    (getStudent (some i) st).1 = Response.notFound ∧
    (updateStudent (some i) (some s) st).1 = Response.notFound ∧
    (deleteStudent (some i) st).1 = Response.notFound ∧
    (∀ st' : StudentStore,
      (getStudent (some i) (deleteStudent (some i) st').2).1 = Response.notFound) := by
  have hlen : ¬ s.validate.length > 0 := by rw [hv]; simp
  refine ⟨by simp [getStudent, habs], by simp [updateStudent, if_neg hlen, habs],
    by simp [deleteStudent, habs], ?_⟩
  intro st'
  cases habs' : mapLookup st'.students i with
  | none => simp [deleteStudent, habs', getStudent]
  | some t => simp [deleteStudent, habs', getStudent, mapLookup_erase_self]

/-- Witness for C4: id 2 is absent from a store holding only id 1. -/
theorem absent_id_not_found_witness :
    (getStudent (some 2)
        { students := [(1, { id := 1, name := "Ann", age := 20, email := "a@b.com" })],
          nextID := 2 }).1 = Response.notFound ∧
    (updateStudent (some 2) (some { id := 0, name := "X", age := 5, email := "x@x" })
        { students := [(1, { id := 1, name := "Ann", age := 20, email := "a@b.com" })],
          nextID := 2 }).1 = Response.notFound ∧
    (deleteStudent (some 2)
        { students := [(1, { id := 1, name := "Ann", age := 20, email := "a@b.com" })],
          nextID := 2 }).1 = Response.notFound ∧
    (∀ st' : StudentStore,
      (getStudent (some 2) (deleteStudent (some 2) st').2).1 = Response.notFound) :=
  absent_id_not_found
    { students := [(1, { id := 1, name := "Ann", age := 20, email := "a@b.com" })], nextID := 2 }
    2 { id := 0, name := "X", age := 5, email := "x@x" } (by decide) (by decide)

/-- C5: whenever a handler answers a failure status (400 or 404), the store
it returns is the store it was given: every handler fully succeeds or
changes nothing. -/
theorem handler_failure_frame (op : Op) (st : StudentStore)
    (h : 400 ≤ ((handle op st).1).status) :
    (handle op st).2 = st := by
  cases op with
  | create body =>
    cases body with
    | none => rfl
    | some s =>
      by_cases hv : s.validate.length > 0
      · simp [handle, createStudent, if_pos hv]
      · simp [handle, createStudent, if_neg hv, Response.status] at h
  | getAll => simp [handle, getAllStudents, Response.status] at h
  | get i =>
    cases i with
    | none => rfl
    | some i =>
      cases hm : mapLookup st.students i with
      | none => simp [handle, getStudent, hm]
      | some t => simp [handle, getStudent, hm, Response.status] at h
  | update i body =>
    cases i with
    | none => rfl
    | some i =>
      cases body with
      | none => rfl
      | some s =>
        by_cases hv : s.validate.length > 0
        · simp [handle, updateStudent, if_pos hv]
        · cases hm : mapLookup st.students i with
          | none => simp [handle, updateStudent, if_neg hv, hm]
          | some t => simp [handle, updateStudent, if_neg hv, hm, Response.status] at h
  | del i =>
    cases i with
    | none => rfl
    | some i =>
      cases hm : mapLookup st.students i with
      | none => simp [handle, deleteStudent, hm]
      | some t => simp [handle, deleteStudent, hm, Response.status] at h
  | summary i =>
    cases i with
    | none => rfl
    | some i =>
      cases hm : mapLookup st.students i with
      | none => simp [handle, getStudentSummary, hm]
      | some t => simp [handle, getStudentSummary, hm, Response.status] at h

/-- Witness for C5: a Create with an undecodable body answers 400 and leaves
a fresh store untouched. -/
theorem handler_failure_frame_witness :
    400 ≤ ((handle (Op.create none) freshStore).1).status ∧
    (handle (Op.create none) freshStore).2 = freshStore :=
  ⟨by decide, handler_failure_frame (Op.create none) freshStore (by decide)⟩

/-- C7: the summary of a stored student with name n, age a, email e is
exactly the sentence built by the handler's format string. -/
theorem summary_format (st : StudentStore) (i : Int) (s : Student)
    (h : mapLookup st.students i = some s) :
    getStudentSummary (some i) st =
      (Response.okSummary ("Student " ++ s.name ++ " is " ++ toString s.age ++
        " years old with email " ++ s.email ++ "."), st) := by
  simp [getStudentSummary, h]

/-- Witness for C7: after creating Ann in a fresh store (id 1), the summary
of id 1 is the example sentence of the spec. -/
theorem summary_format_witness :
    mapLookup (step freshStore
        (Op.create (some { id := 0, name := "Ann", age := 20, email := "a@b.com" }))).students 1 =
      some { id := 1, name := "Ann", age := 20, email := "a@b.com" } ∧
    getStudentSummary (some 1)
        (step freshStore
          (Op.create (some { id := 0, name := "Ann", age := 20, email := "a@b.com" }))) =
      (Response.okSummary "Student Ann is 20 years old with email a@b.com.",
        step freshStore
          (Op.create (some { id := 0, name := "Ann", age := 20, email := "a@b.com" }))) := by
  refine ⟨by decide, ?_⟩
  have h := summary_format
    (step freshStore (Op.create (some { id := 0, name := "Ann", age := 20, email := "a@b.com" })))
    1 { id := 1, name := "Ann", age := 20, email := "a@b.com" } (by decide)
  rw [h]
  rfl

/-- C10: Update touches no binding other than the path id and never touches
`nextID`; Delete touches no binding other than the path id; GetAll, Get and
Summary return the state unchanged. -/
theorem mutation_frame (st : StudentStore) (i j : Int) (s : Student) (h : j ≠ i) :
    mapLookup (updateStudent (some i) (some s) st).2.students j = mapLookup st.students j ∧
    (updateStudent (some i) (some s) st).2.nextID = st.nextID ∧
    mapLookup (deleteStudent (some i) st).2.students j = mapLookup st.students j ∧
    (getAllStudents st).2 = st ∧
    (getStudent (some i) st).2 = st ∧
    (getStudentSummary (some i) st).2 = st := by
  refine ⟨?_, ?_, ?_, rfl, ?_, ?_⟩
  · by_cases hv : s.validate.length > 0
    · simp [updateStudent, if_pos hv]
    · cases hm : mapLookup st.students i with
      | none => simp [updateStudent, if_neg hv, hm]
      | some t => simp [updateStudent, if_neg hv, hm, mapLookup_insert_ne st.students i j _ h]
  · by_cases hv : s.validate.length > 0
    · simp [updateStudent, if_pos hv]
    · cases hm : mapLookup st.students i with
      | none => simp [updateStudent, if_neg hv, hm]
      | some t => simp [updateStudent, if_neg hv, hm]
  · cases hm : mapLookup st.students i with
    | none => simp [deleteStudent, hm]
    | some t => simp [deleteStudent, hm, mapLookup_erase_ne st.students i j h]
  · cases hm : mapLookup st.students i with
    | none => simp [getStudent, hm]
    | some t => simp [getStudent, hm]
  · cases hm : mapLookup st.students i with
    | none => simp [getStudentSummary, hm]
    | some t => simp [getStudentSummary, hm]

/-- Witness for C10 at a two-entry store: mutating id 1 leaves id 2 alone. -/
theorem mutation_frame_witness :
    mapLookup (updateStudent (some 1)
        (some { id := 0, name := "X", age := 5, email := "x@x" })
        { students := [(1, { id := 1, name := "Ann", age := 20, email := "a@b.com" }),
                       (2, { id := 2, name := "Bob", age := 30, email := "b@b.com" })],
          nextID := 3 }).2.students 2 =
      mapLookup [(1, { id := 1, name := "Ann", age := 20, email := "a@b.com" }),
                 (2, { id := 2, name := "Bob", age := 30, email := "b@b.com" })] 2 ∧
    (updateStudent (some 1) (some { id := 0, name := "X", age := 5, email := "x@x" })
        { students := [(1, { id := 1, name := "Ann", age := 20, email := "a@b.com" }),
                       (2, { id := 2, name := "Bob", age := 30, email := "b@b.com" })],
          nextID := 3 }).2.nextID = 3 ∧
    mapLookup (deleteStudent (some 1)
        { students := [(1, { id := 1, name := "Ann", age := 20, email := "a@b.com" }),
                       (2, { id := 2, name := "Bob", age := 30, email := "b@b.com" })],
          nextID := 3 }).2.students 2 =
      mapLookup [(1, { id := 1, name := "Ann", age := 20, email := "a@b.com" }),
                 (2, { id := 2, name := "Bob", age := 30, email := "b@b.com" })] 2 := by
  have h := mutation_frame
    { students := [(1, { id := 1, name := "Ann", age := 20, email := "a@b.com" }),
                   (2, { id := 2, name := "Bob", age := 30, email := "b@b.com" })],
      nextID := 3 }
    1 2 { id := 0, name := "X", age := 5, email := "x@x" } (by decide)
  exact ⟨h.1, h.2.1, h.2.2.1⟩

/-! ### Reachable-state invariants -/

/-- Well-formedness of a store state: every stored student passed
validation and sits under its own id. -/
def storeWF (st : StudentStore) : Prop :=
  ∀ p ∈ st.students, p.2.validate = [] ∧ p.1 = p.2.id

theorem storeWF_fresh : storeWF freshStore := by
  intro p hp
  simp [freshStore] at hp

theorem storeWF_step (st : StudentStore) (op : Op) (h : storeWF st) :
    storeWF (step st op) := by
  cases op with
  | create body =>
    cases body with
    | none => exact h
    | some s =>
      by_cases hv : s.validate.length > 0
      · simpa [step, handle, createStudent, if_pos hv] using h
      · intro p hp
        have hvnil : s.validate = [] := validate_eq_nil_of_not_pos s hv
        have hp' : p ∈ mapInsert st.students st.nextID { s with id := st.nextID } := by
          simpa [step, handle, createStudent, if_neg hv] using hp
        rcases mem_mapInsert _ _ _ _ hp' with h1 | h1
        · subst h1
          exact ⟨hvnil, rfl⟩
        · exact h p h1
  | getAll => exact h
  | get i =>
    cases i with
    | none => exact h
    | some i =>
      cases hm : mapLookup st.students i with
      | none => simpa [step, handle, getStudent, hm] using h
      | some t => simpa [step, handle, getStudent, hm] using h
  | update i body =>
    cases i with
    | none => exact h
    | some i =>
      cases body with
      | none => exact h
      | some s =>
        by_cases hv : s.validate.length > 0
        · simpa [step, handle, updateStudent, if_pos hv] using h
        · cases hm : mapLookup st.students i with
          | none => simpa [step, handle, updateStudent, if_neg hv, hm] using h
          | some t =>
            intro p hp
            have hvnil : s.validate = [] := validate_eq_nil_of_not_pos s hv
            have hp' : p ∈ mapInsert st.students i { s with id := i } := by
              simpa [step, handle, updateStudent, if_neg hv, hm] using hp
            rcases mem_mapInsert _ _ _ _ hp' with h1 | h1
            · subst h1
              exact ⟨hvnil, rfl⟩
            · exact h p h1
  | del i =>
    cases i with
    | none => exact h
    | some i =>
      cases hm : mapLookup st.students i with
      | none => simpa [step, handle, deleteStudent, hm] using h
      | some t =>
        intro p hp
        have hp' : p ∈ mapErase st.students i := by
          simpa [step, handle, deleteStudent, hm] using hp
        exact h p (mem_mapErase _ _ _ hp')
  | summary i =>
    cases i with
    | none => exact h
    | some i =>
      cases hm : mapLookup st.students i with
      | none => simpa [step, handle, getStudentSummary, hm] using h
      | some t => simpa [step, handle, getStudentSummary, hm] using h

theorem storeWF_run (ops : List Op) (st : StudentStore) (h : storeWF st) :
    storeWF (run st ops) := by
  induction ops generalizing st with
  | nil => exact h
  | cons op ops ih => exact ih (step st op) (storeWF_step st op h)

/-- C6: in every state reachable from a fresh store by handler requests,
every stored student passes validation. -/
theorem stored_students_valid (ops : List Op) (p : Int × Student)
    (hp : p ∈ (run freshStore ops).students) : p.2.validate = [] :=
  (storeWF_run ops freshStore storeWF_fresh p hp).1

/-- Witness for C6: after one Create, the stored entry validates cleanly. -/
theorem stored_students_valid_witness :
    (1, { id := 1, name := "Ann", age := 20, email := "a@b.com" }) ∈
      (run freshStore
        [Op.create (some { id := 0, name := "Ann", age := 20, email := "a@b.com" })]).students ∧
    Student.validate { id := 1, name := "Ann", age := 20, email := "a@b.com" } = [] :=
  ⟨by decide,
    stored_students_valid
      [Op.create (some { id := 0, name := "Ann", age := 20, email := "a@b.com" })]
      (1, { id := 1, name := "Ann", age := 20, email := "a@b.com" }) (by decide)⟩

/-- C9: in every state reachable from a fresh store by handler requests,
every map entry's key equals the id field of the student stored under it. -/
theorem stored_key_matches_id (ops : List Op) (p : Int × Student)
    (hp : p ∈ (run freshStore ops).students) : p.1 = p.2.id :=
  (storeWF_run ops freshStore storeWF_fresh p hp).2

/-- Witness for C9: after a Create and an Update, the updated entry's key 1
equals its stored id. -/
theorem stored_key_matches_id_witness :
    (1, { id := 1, name := "X", age := 5, email := "x@x" }) ∈
      (run freshStore
        [Op.create (some { id := 0, name := "Ann", age := 20, email := "a@b.com" }),
         Op.update (some 1) (some { id := 77, name := "X", age := 5, email := "x@x" })]).students ∧
    (1 : Int) = ({ id := 1, name := "X", age := 5, email := "x@x" } : Student).id :=
  ⟨by decide,
    stored_key_matches_id
      [Op.create (some { id := 0, name := "Ann", age := 20, email := "a@b.com" }),
       Op.update (some 1) (some { id := 77, name := "X", age := 5, email := "x@x" })]
      (1, { id := 1, name := "X", age := 5, email := "x@x" }) (by decide)⟩

/-! ### Ollama generation client -/

/-- Go struct `OllamaClient`. -/
structure OllamaClient where
  baseURL : String
deriving Repr, DecidableEq

/-- Go struct `OllamaRequest` (the JSON body of the POST). -/
structure OllamaRequest where
  model : String
  prompt : String
deriving Repr, DecidableEq

/-- Go struct `OllamaResponse` (the decoded JSON reply). -/
structure OllamaResponse where
  response : String
deriving Repr, DecidableEq

/-- The prompt built by `GenerateStudentSummary`:
`fmt.Sprintf("Generate a brief summary of this student:\nName: %s\nAge: %d\nEmail: %s", ...)`. -/
def ollamaPrompt (s : Student) : String :=
  "Generate a brief summary of this student:\nName: " ++ s.name ++ "\nAge: " ++
    toString s.age ++ "\nEmail: " ++ s.email

/-- The prompt as the specification document renders it, on one line with
comma separators; kept to compare against the prompt the code builds. -/
def specPrompt (s : Student) : String :=
  "Generate a brief summary of this student: Name: " ++ s.name ++ ", Age: " ++
    toString s.age ++ ", Email: " ++ s.email

/-- The HTTP POST issued by `GenerateStudentSummary`, as handed to
`http.Post`: target URL, content type, and the marshalled body. -/
structure PostCall where
  url : String
  contentType : String
  body : OllamaRequest
deriving Repr, DecidableEq

/-- The call `GenerateStudentSummary` makes for a student. -/
def ollamaCall (c : OllamaClient) (s : Student) : PostCall :=
  { url := c.baseURL ++ "/api/generate",
    contentType := "application/json",
    body := { model := "llama2", prompt := ollamaPrompt s } }

/-- `OllamaClient.GenerateStudentSummary`.  The network round trip plus JSON
decode of the reply is the function argument `net`; an `Except.error` covers
both the `http.Post` error and the decode error, which the Go code returns
unchanged. -/
def generateStudentSummary (c : OllamaClient)
    (net : PostCall → Except String OllamaResponse) (s : Student) : Except String String :=
  match net (ollamaCall c s) with
  | Except.error e => Except.error e
  | Except.ok resp => Except.ok resp.response

/-- Counterexample to C8 as stated: for Ann the code's prompt is the
newline-separated sentence, not the one-line comma-separated template the
claim quotes. -/
theorem ollama_prompt_counterexample :
    ollamaPrompt { id := 1, name := "Ann", age := 20, email := "a@b.com" } ≠
      specPrompt { id := 1, name := "Ann", age := 20, email := "a@b.com" } ∧
    ollamaPrompt { id := 1, name := "Ann", age := 20, email := "a@b.com" } ≠
      "Generate a brief summary of this student: Name: Ann, Age: 20, Email: a@b.com" := by
  constructor <;> decide

/-- C8 amended: `GenerateStudentSummary` posts to `baseURL ++ "/api/generate"`
the JSON body with model `llama2` and the newline-separated prompt
`Generate a brief summary of this student:` + newline + `Name: ...` +
newline + `Age: ...` + newline + `Email: ...`; it returns the reply's
`response` field on success and passes any network or decode error through. -/
theorem generate_summary_contract (c : OllamaClient)
    (net : PostCall → Except String OllamaResponse) (s : Student) :
    ollamaCall c s =
      { url := c.baseURL ++ "/api/generate",
        contentType := "application/json",
        body := { model := "llama2",
                  prompt := "Generate a brief summary of this student:\nName: " ++ s.name ++
                    "\nAge: " ++ toString s.age ++ "\nEmail: " ++ s.email } } ∧
    (∀ r, net (ollamaCall c s) = Except.ok r →
      generateStudentSummary c net s = Except.ok r.response) ∧
    (∀ e, net (ollamaCall c s) = Except.error e →
      generateStudentSummary c net s = Except.error e) := by
  refine ⟨rfl, ?_, ?_⟩
  · intro r hr
    simp [generateStudentSummary, hr]
  · intro e he
    simp [generateStudentSummary, he]

/-- Witness for the amended C8 on a success reply and an error reply. -/
theorem generate_summary_contract_witness :
    generateStudentSummary { baseURL := "http://localhost:11434" }
        (fun _ => Except.ok { response := "a short summary" })
        { id := 1, name := "Ann", age := 20, email := "a@b.com" } =
      Except.ok "a short summary" ∧
    generateStudentSummary { baseURL := "http://localhost:11434" }
        (fun _ => Except.error "connection refused")
        { id := 1, name := "Ann", age := 20, email := "a@b.com" } =
      Except.error "connection refused" :=
  ⟨(generate_summary_contract { baseURL := "http://localhost:11434" }
      (fun _ => Except.ok { response := "a short summary" })
      { id := 1, name := "Ann", age := 20, email := "a@b.com" }).2.1
      { response := "a short summary" } rfl,
    (generate_summary_contract { baseURL := "http://localhost:11434" }
      (fun _ => Except.error "connection refused")
      { id := 1, name := "Ann", age := 20, email := "a@b.com" }).2.2
      "connection refused" rfl⟩
